import Mathlib

/-!
Verification of the gif-privacy-proxy connection pipeline (src/main.rs).

Rust strings are UTF-8 byte sequences; we model them as `List Nat` with every
element a byte value.  `ascii s` encodes an ASCII Lean string literal into its
byte list, which coincides with its UTF-8 encoding.
-/

namespace GifProxy

/-- Byte encoding of an ASCII string literal (for ASCII text this is exactly
its UTF-8 byte sequence, hence exactly the bytes of the Rust `&str`). -/
def ascii (s : String) : List Nat := s.data.map Char.toNat

/-- `const PERMITTED_DESTINATIONS: &[&str] = &["api.giphy.com:443"];` -/
def PERMITTED_DESTINATIONS : List (List Nat) := [ascii "api.giphy.com:443"]

/-- `async fn is_permitted_destination(url: &str) -> bool \x7b
      PERMITTED_DESTINATIONS.contains(&url) \x7d`
Rust `&str` equality is byte-for-byte equality, so `List.contains` on byte
lists is the faithful translation. -/
def is_permitted_destination (url : List Nat) : Bool :=
  PERMITTED_DESTINATIONS.contains url

/-- `struct HttpRequest \x7b method: String, uri: String \x7d` -/
structure HttpRequest where
  method : List Nat
  uri : List Nat
deriving DecidableEq, Repr

/-- The two error kinds the reading/parsing path can produce: the
`std::str::Utf8Error` from `from_utf8`, and the `InvalidData` error that
`parse_http_request` builds (`MalformedRequestError` in the spec). -/
inductive HttpError where
  | malformedRequest
  | utf8Error
deriving DecidableEq, Repr

deriving instance DecidableEq for Except

/-- The validation automaton behind Rust `std::str::from_utf8`
(`core::str::run_utf8_validation`), one byte at a time.  The first argument
is the list of inclusive byte ranges the next bytes must fall in to finish
the multi-byte sequence currently open (empty when no sequence is open).
At a lead position: ASCII bytes (`00..=7F`) stand alone; `C2..=DF` open a
sequence with one continuation byte (`80..=BF`); `E0` requires `A0..=BF`
then a continuation; `E1..=EC`, `EE`, `EF` require two continuations; `ED`
requires `80..=9F` (no surrogates) then a continuation; `F0` requires
`90..=BF` then two continuations; `F1..=F3` require three continuations;
`F4` requires `80..=8F` (capping at U+10FFFF) then two continuations;
every other byte (`80..=C1`, `F5..`) is illegal.  Input ending with a
sequence still open is invalid. -/
def utf8ValidGo : List (Nat × Nat) → List Nat → Bool
  | [], [] => true
  | _ :: _, [] => false
  | (lo, hi) :: pending, b :: rest =>
    if lo ≤ b && b ≤ hi then utf8ValidGo pending rest else false
  | [], b :: rest =>
    if b ≤ 0x7F then utf8ValidGo [] rest
    else if 0xC2 ≤ b && b ≤ 0xDF then utf8ValidGo [(0x80, 0xBF)] rest
    else if b = 0xE0 then utf8ValidGo [(0xA0, 0xBF), (0x80, 0xBF)] rest
    else if (0xE1 ≤ b && b ≤ 0xEC) || b = 0xEE || b = 0xEF then
      utf8ValidGo [(0x80, 0xBF), (0x80, 0xBF)] rest
    else if b = 0xED then utf8ValidGo [(0x80, 0x9F), (0x80, 0xBF)] rest
    else if b = 0xF0 then utf8ValidGo [(0x90, 0xBF), (0x80, 0xBF), (0x80, 0xBF)] rest
    else if 0xF1 ≤ b && b ≤ 0xF3 then
      utf8ValidGo [(0x80, 0xBF), (0x80, 0xBF), (0x80, 0xBF)] rest
    else if b = 0xF4 then utf8ValidGo [(0x80, 0x8F), (0x80, 0xBF), (0x80, 0xBF)] rest
    else false

/-- UTF-8 validity of a byte sequence, as checked by Rust
`std::str::from_utf8` (RFC 3629: shortest forms only, no surrogates,
code points at most U+10FFFF). -/
def utf8Valid (l : List Nat) : Bool := utf8ValidGo [] l

/-- The fixed buffer size of `read_http_request`: `[u8; 512]`. -/
def BUFFER_SIZE : Nat := 512

/-- The buffer contents after `client_stream.read(&mut buffer)` deposited
`data` into the zero-initialised 512-byte buffer: the bytes read (at most
512 fit) followed by the untouched NUL bytes. -/
def mkBuffer (data : List Nat) : List Nat :=
  data.take BUFFER_SIZE ++ List.replicate (BUFFER_SIZE - data.length) 0

/-- `async fn read_http_request(...) -> Result<String, ...>`: a single read
into a zeroed 512-byte buffer, then `std::str::from_utf8(&buffer)` over the
ENTIRE buffer.  `data` is the byte sequence the read call deposited; transport
errors of the read itself are handled at the connection level (`ConnEnv`). -/
def read_http_request (data : List Nat) : Except HttpError (List Nat) :=
  let buffer := mkBuffer data
  if utf8Valid buffer then .ok buffer else .error .utf8Error

/-- Rust `str::split(' ')`: splits on each space byte, keeping empty pieces;
on the empty string it yields one empty piece. -/
def splitB : List Nat → List (List Nat)
  | [] => [[]]
  | b :: rest =>
    if b = 32 then [] :: splitB rest
    else
      match splitB rest with
      | [] => [[b]]
      | p :: ps => (b :: p) :: ps

/-- `async fn parse_http_request(req: &str) -> Result<HttpRequest, ...>`:
`req.split(' ')`, `req.get(0)` is the method, `req.get(1)` the uri; a missing
piece gives the `InvalidData` (malformed request) error. -/
def parse_http_request (req : List Nat) : Except HttpError HttpRequest :=
  let pieces := splitB req
  match pieces.get? 0 with
  | none => .error .malformedRequest
  | some m =>
    match pieces.get? 1 with
    | none => .error .malformedRequest
    | some u => .ok ⟨m, u⟩

/-- `async fn is_http_connect(req: &HttpRequest) -> bool`. -/
def is_http_connect (req : HttpRequest) : Bool :=
  req.method == ascii "CONNECT"

/-- `format!("HTTP/1.1 \x7b\x7d \x7b\x7d\r\n\r\n", status_code, status_message)`. -/
def create_http_status (status_code : Nat) (status_message : List Nat) : List Nat :=
  ascii "HTTP/1.1 " ++ ascii (toString status_code) ++ ascii " " ++
    status_message ++ ascii "\r\n\r\n"

/-- The bytes `send_unsupported_method_status` writes. -/
def methodNotAllowedLine : List Nat := create_http_status 405 (ascii "Method Not Allowed")

/-- The bytes `send_forbidden_status` writes (note the reason phrase in the
source is `"Forbidden Yeah"`). -/
def forbiddenLine : List Nat := create_http_status 403 (ascii "Forbidden Yeah")

/-- The bytes `send_ok_status` writes. -/
def okLine : List Nat := create_http_status 200 (ascii "OK")

/-- Observable steps of one iteration of the `run_server` loop, in the order
they happen on the wire. -/
inductive Event where
  | accepted
  | tlsEstablished
  | statusSent (line : List Nat)
  | upstreamConnected (dst : List Nat)
  | streamFlushed
  | relayed
  | closed
deriving DecidableEq, Repr

/-- The environment of one loop iteration: the outcome of each fallible I/O
interaction of `run_server` with the outside world.  `readBytes = some data`
means the single `read` call succeeded and deposited `data` in the buffer;
`none` means it returned a transport error.  The success of the 405/403
status writes does not appear: `unwrap_or_continue!` makes both outcomes
`continue`, identically. -/
structure ConnEnv where
  acceptOk : Bool
  tlsOk : Bool
  readBytes : Option (List Nat)
  connectOk : Bool
  okWriteOk : Bool
  flushOk : Bool
deriving Repr

/-- One iteration of the `run_server` loop body, as the sequence of observable
events it performs.  Each `unwrap_or_continue!` failure ends the iteration
(the streams are dropped, i.e. closed); the explicit `continue`s after the 405
and 403 responses do the same.  `copy_bidirectional` runs exactly when the
200 OK write and the following `flush` both succeeded. -/
def handleConn (env : ConnEnv) : List Event :=
  if !env.acceptOk then [] else
  Event.accepted ::
  if !env.tlsOk then [.closed] else
  Event.tlsEstablished ::
  match env.readBytes with
  | none => [.closed]
  | some data =>
    match read_http_request data with
    | .error _ => [.closed]
    | .ok line =>
      match parse_http_request line with
      | .error _ => [.closed]
      | .ok req =>
        if !is_http_connect req then
          [.statusSent methodNotAllowedLine, .closed]
        else if !is_permitted_destination req.uri then
          [.statusSent forbiddenLine, .closed]
        else if !env.connectOk then [.closed] else
        Event.upstreamConnected req.uri ::
        if !env.okWriteOk then [.closed] else
        Event.statusSent okLine ::
        if !env.flushOk then [.closed] else
        [Event.streamFlushed, Event.relayed, Event.closed]

/-- `run_server`: the accept loop, handling each accepted connection to
completion before the next `accept`.  The loop body contains no task spawn:
every event of iteration `n` happens before any event of iteration `n+1`. -/
def runServer : List ConnEnv → List Event
  | [] => []
  | env :: rest => handleConn env ++ runServer rest

/-- An iteration environment in which every interaction succeeds and the
client sends a well-formed allow-listed CONNECT request. -/
def fullTunnelEnv : ConnEnv :=
  ⟨true, true, some (ascii "CONNECT api.giphy.com:443 HTTP/1.1\r\n\r\n"), true, true, true⟩

/-- An iteration environment whose client asks to CONNECT to a destination
that is not on the allow-list. -/
def forbiddenEnv : ConnEnv :=
  ⟨true, true, some (ascii "CONNECT evil.example:443 HTTP/1.1\r\n\r\n"), true, true, true⟩

/-- An iteration environment whose client sends a GET for an allow-listed
target. -/
def getEnv : ConnEnv :=
  ⟨true, true, some (ascii "GET api.giphy.com:443 HTTP/1.1\r\n\r\n"), true, true, true⟩

/-- An iteration environment whose TLS handshake fails. -/
def tlsFailEnv : ConnEnv := ⟨true, false, none, false, false, false⟩

/-- A 512-byte request whose target is the final space-separated token and
fills the read buffer exactly: a 494-byte method, one space, and the
17-byte allow-listed target. -/
def fullBufferRequest : List Nat := List.replicate 494 65 ++ 32 :: ascii "api.giphy.com:443"

/-- A 25-byte request whose target is the final space-separated token. -/
def paddedRequest : List Nat := ascii "CONNECT api.giphy.com:443"

/-- The buffer `read_http_request` produces for `paddedRequest`: the request
followed by 487 NUL bytes. -/
def paddedBuffer : List Nat := paddedRequest ++ List.replicate 487 0

/-- What `parse_http_request` makes of `paddedBuffer`: the NUL padding sticks
to the target. -/
def paddedParsed : HttpRequest :=
  ⟨ascii "CONNECT", ascii "api.giphy.com:443" ++ List.replicate 487 0⟩

set_option maxRecDepth 8000

lemma utf8ValidGo_nil_zeros (k : Nat) : utf8ValidGo [] (List.replicate k 0) = true := by
  induction k with
  | zero => rfl
  | succ n ih => simpa [List.replicate_succ, utf8ValidGo] using ih

lemma utf8ValidGo_pad : ∀ (l : List Nat) (pending : List (Nat × Nat)),
    (∀ p ∈ pending, 0 < p.1) → ∀ k,
    utf8ValidGo pending (l ++ List.replicate k 0) = utf8ValidGo pending l := by
  intro l
  induction l with
  | nil =>
    intro pending hp k
    cases pending with
    | nil => simp [utf8ValidGo_nil_zeros, utf8ValidGo]
    | cons q qs =>
      obtain ⟨lo, hi⟩ := q
      have hlo : 0 < lo := hp (lo, hi) (by simp)
      cases k with
      | zero => simp
      | succ n =>
        simp [List.replicate_succ, utf8ValidGo]
        omega
  | cons b rest ih =>
    intro pending hp k
    cases pending with
    | cons q qs =>
      obtain ⟨lo, hi⟩ := q
      simp only [List.cons_append, utf8ValidGo]
      split_ifs with h
      · exact ih qs (fun p hm => hp p (List.mem_cons_of_mem _ hm)) k
      · rfl
    | nil =>
      simp only [List.cons_append, utf8ValidGo]
      split_ifs <;> first
        | rfl
        | exact ih _ (by decide) k

/-- NUL-padding a byte sequence does not change its UTF-8 validity: NUL is
valid on its own and never a legal continuation byte. -/
lemma utf8Valid_pad (l : List Nat) (k : Nat) :
    utf8Valid (l ++ List.replicate k 0) = utf8Valid l :=
  utf8ValidGo_pad l [] (by simp) k

lemma splitB_ne_nil : ∀ l : List Nat, splitB l ≠ [] := by
  intro l
  cases l with
  | nil => simp [splitB]
  | cons b rest =>
    by_cases h : b = 32
    · simp [splitB, h]
    · simp only [splitB, if_neg h]
      cases splitB rest <;> simp

lemma length_splitB : ∀ l : List Nat, (splitB l).length = l.count 32 + 1 := by
  intro l
  induction l with
  | nil => simp [splitB]
  | cons b rest ih =>
    by_cases h : b = 32
    · simp [splitB, h, List.count_cons, ih]
    · simp only [splitB, if_neg h]
      cases hs : splitB rest with
      | nil => exact absurd hs (splitB_ne_nil rest)
      | cons p ps =>
        have : ps.length + 1 = rest.count 32 + 1 := by rw [← ih, hs]; rfl
        simp [List.count_cons, h, Ne.symm h]
        omega

lemma splitB_no_space : ∀ {m : List Nat}, 32 ∉ m → splitB m = [m] := by
  intro m
  induction m with
  | nil => intro _; rfl
  | cons b rest ih =>
    intro h
    have hb : ¬ b = 32 := fun hb => h (hb ▸ List.mem_cons_self b rest)
    have : splitB rest = [rest] := ih (fun hm => h (List.mem_cons_of_mem b hm))
    simp [splitB, hb, this]

lemma splitB_append : ∀ {m : List Nat}, 32 ∉ m → ∀ rest : List Nat,
    splitB (m ++ 32 :: rest) = m :: splitB rest := by
  intro m
  induction m with
  | nil => intro _ rest; simp [splitB]
  | cons b t ih =>
    intro h rest
    have hb : ¬ b = 32 := fun hb => h (hb ▸ List.mem_cons_self b t)
    have ht := ih (fun hm => h (List.mem_cons_of_mem b hm)) rest
    simp [splitB, hb, ht]

/-- `parse_http_request` in terms of the split pieces. -/
lemma parse_http_request_eq (req : List Nat) :
    parse_http_request req =
      match splitB req with
      | m :: u :: _ => .ok ⟨m, u⟩
      | _ => .error .malformedRequest := by
  unfold parse_http_request
  cases h : splitB req with
  | nil => rfl
  | cons m t => cases t <;> rfl

lemma mkBuffer_eq {data : List Nat} (h : data.length ≤ BUFFER_SIZE) :
    mkBuffer data = data ++ List.replicate (BUFFER_SIZE - data.length) 0 := by
  simp [mkBuffer, List.take_of_length_le h]

lemma mkBuffer_length (data : List Nat) : (mkBuffer data).length = BUFFER_SIZE := by
  simp only [mkBuffer, List.length_append, List.length_take, List.length_replicate]
  omega

/-- On a read of at most the buffer size, `read_http_request` succeeds
exactly when the bytes read are valid UTF-8, and then hands on the whole
NUL-padded buffer. -/
lemma read_http_request_eq {data : List Nat} (h : data.length ≤ BUFFER_SIZE) :
    read_http_request data =
      if utf8Valid data then .ok (data ++ List.replicate (BUFFER_SIZE - data.length) 0)
      else .error .utf8Error := by
  show (if utf8Valid (mkBuffer data) = true then Except.ok (mkBuffer data)
      else Except.error HttpError.utf8Error) = _
  rw [mkBuffer_eq h, utf8Valid_pad]

lemma count_one_split {l : List Nat} (h : l.count 32 = 1) :
    ∃ m u, l = m ++ 32 :: u ∧ 32 ∉ m ∧ 32 ∉ u := by
  induction l with
  | nil => simp at h
  | cons b rest ih =>
    by_cases hb : b = 32
    · subst hb
      have h0 : rest.count 32 = 0 := by
        have := h
        simp [List.count_cons] at this
        omega
      exact ⟨[], rest, rfl, by simp, by simpa [List.count_eq_zero] using h0⟩
    · have h1 : rest.count 32 = 1 := by
        have := h
        simp [List.count_cons, Ne.symm hb] at this
        omega
      obtain ⟨m, u, rfl, hm, hu⟩ := ih h1
      exact ⟨b :: m, u, rfl, by simp [hm, Ne.symm hb], hu⟩

lemma read_ok_elim {data s : List Nat} (h : read_http_request data = .ok s) :
    s = mkBuffer data := by
  have hd : read_http_request data =
      if utf8Valid (mkBuffer data) = true then Except.ok (mkBuffer data)
      else Except.error HttpError.utf8Error := rfl
  rw [hd] at h
  split_ifs at h with hv
  exact (Except.ok.inj h).symm

/-- The trace of one loop iteration takes exactly one of eight shapes,
mirroring the exit points of the `run_server` loop body. -/
lemma handleConn_cases (env : ConnEnv) :
    (env.acceptOk = false ∧ handleConn env = []) ∨
    handleConn env = [.accepted, .closed] ∨
    handleConn env = [.accepted, .tlsEstablished, .closed] ∨
    (∃ data s req, env.readBytes = some data ∧ read_http_request data = .ok s ∧
      parse_http_request s = .ok req ∧
      ((is_http_connect req = false ∧
         handleConn env = [.accepted, .tlsEstablished, .statusSent methodNotAllowedLine, .closed]) ∨
       (is_http_connect req = true ∧ is_permitted_destination req.uri = false ∧
         handleConn env = [.accepted, .tlsEstablished, .statusSent forbiddenLine, .closed]) ∨
       (is_http_connect req = true ∧ is_permitted_destination req.uri = true ∧
         (handleConn env = [.accepted, .tlsEstablished, .upstreamConnected req.uri, .closed] ∨
          handleConn env = [.accepted, .tlsEstablished, .upstreamConnected req.uri,
            .statusSent okLine, .closed] ∨
          handleConn env = [.accepted, .tlsEstablished, .upstreamConnected req.uri,
            .statusSent okLine, .streamFlushed, .relayed, .closed])))) := by
  obtain ⟨a, t, rb, c, w, f⟩ := env
  cases a with
  | false => exact Or.inl ⟨rfl, by simp [handleConn]⟩
  | true =>
  cases t with
  | false => exact Or.inr (Or.inl (by simp [handleConn]))
  | true =>
  cases rb with
  | none => exact Or.inr (Or.inr (Or.inl (by simp [handleConn])))
  | some data =>
  cases hread : read_http_request data with
  | error e => exact Or.inr (Or.inr (Or.inl (by simp [handleConn, hread])))
  | ok s =>
  cases hparse : parse_http_request s with
  | error e => exact Or.inr (Or.inr (Or.inl (by simp [handleConn, hread, hparse])))
  | ok req =>
  cases hc : is_http_connect req with
  | false =>
    exact Or.inr (Or.inr (Or.inr ⟨data, s, req, rfl, hread, hparse,
      Or.inl ⟨hc, by simp [handleConn, hread, hparse, hc]⟩⟩))
  | true =>
  cases hp : is_permitted_destination req.uri with
  | false =>
    exact Or.inr (Or.inr (Or.inr ⟨data, s, req, rfl, hread, hparse,
      Or.inr (Or.inl ⟨hc, hp, by simp [handleConn, hread, hparse, hc, hp]⟩)⟩))
  | true =>
  cases c with
  | false => exact Or.inr (Or.inr (Or.inl (by simp [handleConn, hread, hparse, hc, hp])))
  | true =>
  refine Or.inr (Or.inr (Or.inr ⟨data, s, req, rfl, hread, hparse,
    Or.inr (Or.inr ⟨hc, hp, ?_⟩)⟩))
  cases w with
  | false => exact Or.inl (by simp [handleConn, hread, hparse, hc, hp])
  | true =>
  cases f with
  | false => exact Or.inr (Or.inl (by simp [handleConn, hread, hparse, hc, hp]))
  | true => exact Or.inr (Or.inr (by simp [handleConn, hread, hparse, hc, hp]))

lemma forbiddenLine_ne_ok : forbiddenLine ≠ okLine := by decide

lemma methodLine_ne_ok : methodNotAllowedLine ≠ okLine := by decide

lemma is_permitted_iff (s : List Nat) :
    is_permitted_destination s = true ↔ s = ascii "api.giphy.com:443" := by
  simp [is_permitted_destination, PERMITTED_DESTINATIONS, List.contains]

/-- C1: the allow-list policy permits a string exactly when it is
byte-for-byte equal to an entry of `PERMITTED_DESTINATIONS` (no case folding
or normalization of any kind), and it rejects the empty string. -/
theorem C1_exact_match (s : List Nat) :
    (is_permitted_destination s = true ↔ s ∈ PERMITTED_DESTINATIONS) ∧
    is_permitted_destination (ascii "") = false := by
  refine ⟨?_, by decide⟩
  rw [is_permitted_iff]
  simp [PERMITTED_DESTINATIONS]

/-- Witness for C1 at concrete inputs: the sole entry is permitted, the empty
string is not. -/
theorem C1_witness :
    is_permitted_destination (ascii "api.giphy.com:443") = true ∧
    is_permitted_destination (ascii "") = false :=
  ⟨(C1_exact_match (ascii "api.giphy.com:443")).1.mpr (by decide),
   (C1_exact_match (ascii "")).2⟩

/-- C2 counterexample: on a CONNECT to a non-allow-listed destination the
proxy writes `HTTP/1.1 403 Forbidden Yeah\r\n\r\n` — not the claimed
`HTTP/1.1 403 Forbidden\r\n\r\n`, which never appears in the trace. -/
theorem C2_counterexample :
    handleConn forbiddenEnv =
      [.accepted, .tlsEstablished,
       .statusSent (ascii "HTTP/1.1 403 Forbidden Yeah\r\n\r\n"), .closed] ∧
    ascii "HTTP/1.1 403 Forbidden Yeah\r\n\r\n" ≠ ascii "HTTP/1.1 403 Forbidden\r\n\r\n" ∧
    Event.statusSent (ascii "HTTP/1.1 403 Forbidden\r\n\r\n") ∉ handleConn forbiddenEnv := by
  refine ⟨by decide, by decide, by decide⟩

/-- C2 (amended): on a connection whose parsed method is CONNECT and whose
target is not allow-listed, the proxy writes exactly the status line
`HTTP/1.1 403 Forbidden Yeah\r\n\r\n` (no headers, no body, and nothing
else) to the client and then closes the connection. -/
theorem C2_forbidden_response (env : ConnEnv) (data s : List Nat) (req : HttpRequest)
    (ha : env.acceptOk = true) (ht : env.tlsOk = true) (hr : env.readBytes = some data)
    (hread : read_http_request data = .ok s) (hparse : parse_http_request s = .ok req)
    (hc : is_http_connect req = true) (hp : is_permitted_destination req.uri = false) :
    forbiddenLine = ascii "HTTP/1.1 403 Forbidden Yeah\r\n\r\n" ∧
    handleConn env = [.accepted, .tlsEstablished, .statusSent forbiddenLine, .closed] := by
  refine ⟨by decide, ?_⟩
  simp [handleConn, ha, ht, hr, hread, hparse, hc, hp]

/-- Witness for C2 (amended) at the concrete environment `forbiddenEnv`. -/
theorem C2_witness :
    forbiddenLine = ascii "HTTP/1.1 403 Forbidden Yeah\r\n\r\n" ∧
    handleConn forbiddenEnv =
      [.accepted, .tlsEstablished, .statusSent forbiddenLine, .closed] :=
  C2_forbidden_response forbiddenEnv (ascii "CONNECT evil.example:443 HTTP/1.1\r\n\r\n")
    (mkBuffer (ascii "CONNECT evil.example:443 HTTP/1.1\r\n\r\n"))
    ⟨ascii "CONNECT", ascii "evil.example:443"⟩
    rfl rfl rfl (by decide) (by decide) (by decide) (by decide)

/-- C3: on a connection whose parsed method is not CONNECT the proxy sends
exactly `HTTP/1.1 405 Method Not Allowed\r\n\r\n` and closes; no allow-list
hypothesis is needed, so a non-CONNECT request gets 405 regardless of
whether its target is allow-listed. -/
theorem C3_method_not_allowed (env : ConnEnv) (data s : List Nat) (req : HttpRequest)
    (ha : env.acceptOk = true) (ht : env.tlsOk = true) (hr : env.readBytes = some data)
    (hread : read_http_request data = .ok s) (hparse : parse_http_request s = .ok req)
    (hc : is_http_connect req = false) :
    methodNotAllowedLine = ascii "HTTP/1.1 405 Method Not Allowed\r\n\r\n" ∧
    handleConn env =
      [.accepted, .tlsEstablished, .statusSent methodNotAllowedLine, .closed] := by
  refine ⟨by decide, ?_⟩
  simp [handleConn, ha, ht, hr, hread, hparse, hc]

/-- Witness for C3: a GET whose target IS allow-listed still receives 405. -/
theorem C3_witness :
    methodNotAllowedLine = ascii "HTTP/1.1 405 Method Not Allowed\r\n\r\n" ∧
    is_permitted_destination (ascii "api.giphy.com:443") = true ∧
    handleConn getEnv =
      [.accepted, .tlsEstablished, .statusSent methodNotAllowedLine, .closed] := by
  have h := C3_method_not_allowed getEnv (ascii "GET api.giphy.com:443 HTTP/1.1\r\n\r\n")
    (mkBuffer (ascii "GET api.giphy.com:443 HTTP/1.1\r\n\r\n"))
    ⟨ascii "GET", ascii "api.giphy.com:443"⟩
    rfl rfl rfl (by decide) (by decide) (by decide)
  exact ⟨h.1, by decide, h.2⟩

/-- C4: pipeline steps are strictly ordered within a connection.  The
upstream connection is opened only for a parsed CONNECT request with an
allow-listed target and never on a 403 or 405 path; the 200 OK line is
written only directly after a successful upstream connect; and the relay
runs only at the end of the full success trace, after the 200 OK and the
flush. -/
theorem C4_pipeline_order (env : ConnEnv) :
    (∀ u, Event.upstreamConnected u ∈ handleConn env →
      (∃ data s req, env.readBytes = some data ∧ read_http_request data = .ok s ∧
        parse_http_request s = .ok req ∧ is_http_connect req = true ∧
        is_permitted_destination req.uri = true ∧ req.uri = u) ∧
      Event.statusSent forbiddenLine ∉ handleConn env ∧
      Event.statusSent methodNotAllowedLine ∉ handleConn env) ∧
    (Event.statusSent okLine ∈ handleConn env →
      ∃ u, (handleConn env).take 4 =
        [.accepted, .tlsEstablished, .upstreamConnected u, .statusSent okLine]) ∧
    (Event.relayed ∈ handleConn env →
      ∃ u, handleConn env =
        [.accepted, .tlsEstablished, .upstreamConnected u, .statusSent okLine,
          .streamFlushed, .relayed, .closed]) := by
  rcases handleConn_cases env with ⟨_, hs⟩ | hs | hs |
    ⟨data, s, req, hrb, hread, hparse, hcase⟩
  · rw [hs]; exact ⟨by simp, by simp, by simp⟩
  · rw [hs]; exact ⟨by simp, by simp, by simp⟩
  · rw [hs]; exact ⟨by simp, by simp, by simp⟩
  · rcases hcase with ⟨hc, hs⟩ | ⟨hc, hp, hs⟩ | ⟨hc, hp, hs | hs | hs⟩ <;> rw [hs]
    · exact ⟨by simp, by simp [Ne.symm methodLine_ne_ok], by simp⟩
    · exact ⟨by simp, by simp [Ne.symm forbiddenLine_ne_ok], by simp⟩
    · refine ⟨?_, by simp, by simp⟩
      intro u hu
      simp at hu
      exact ⟨⟨data, s, req, hrb, hread, hparse, hc, hp, hu.symm⟩,
        by simp [Ne.symm forbiddenLine_ne_ok], by simp [Ne.symm methodLine_ne_ok]⟩
    · refine ⟨?_, ?_, by simp⟩
      · intro u hu
        simp at hu
        exact ⟨⟨data, s, req, hrb, hread, hparse, hc, hp, hu.symm⟩,
          by simp [Ne.symm forbiddenLine_ne_ok, forbiddenLine_ne_ok],
          by simp [Ne.symm methodLine_ne_ok, methodLine_ne_ok]⟩
      · intro _; exact ⟨req.uri, rfl⟩
    · refine ⟨?_, ?_, ?_⟩
      · intro u hu
        simp at hu
        exact ⟨⟨data, s, req, hrb, hread, hparse, hc, hp, hu.symm⟩,
          by simp [Ne.symm forbiddenLine_ne_ok, forbiddenLine_ne_ok],
          by simp [Ne.symm methodLine_ne_ok, methodLine_ne_ok]⟩
      · intro _; exact ⟨req.uri, rfl⟩
      · intro _; exact ⟨req.uri, rfl⟩

/-- Witness for C4 at the full-tunnel environment: the relay happens, and the
trace is exactly the ordered success trace. -/
theorem C4_witness :
    Event.relayed ∈ handleConn fullTunnelEnv ∧
    (∃ u, handleConn fullTunnelEnv =
      [.accepted, .tlsEstablished, .upstreamConnected u, .statusSent okLine,
        .streamFlushed, .relayed, .closed]) :=
  ⟨by decide, (C4_pipeline_order fullTunnelEnv).2.2 (by decide)⟩

/-- C5: the request-line parser fails with the malformed-request error
exactly when its input splits into fewer than two space-separated tokens
(in particular on the empty string), and the reader fails with the UTF-8
error exactly when the bytes read are not valid UTF-8. -/
theorem C5_parse_read_errors :
    (∀ req : List Nat,
      (parse_http_request req = .error .malformedRequest ↔ (splitB req).length < 2)) ∧
    parse_http_request (ascii "") = .error .malformedRequest ∧
    (∀ data : List Nat, data.length ≤ BUFFER_SIZE →
      (read_http_request data = .error .utf8Error ↔ utf8Valid data = false)) := by
  refine ⟨fun req => ?_, by decide, fun data h => ?_⟩
  · rw [parse_http_request_eq]
    cases hs : splitB req with
    | nil => exact absurd hs (splitB_ne_nil req)
    | cons m t => cases t <;> simp
  · rw [read_http_request_eq h]
    cases hv : utf8Valid data <;> simp

/-- Witness for C5 at concrete inputs: a one-token line is malformed, and a
lone UTF-8 lead byte yields the UTF-8 error. -/
theorem C5_witness :
    parse_http_request (ascii "ThisIsSomeTestText") = .error .malformedRequest ∧
    read_http_request [0xC2] = .error .utf8Error :=
  ⟨(C5_parse_read_errors.1 (ascii "ThisIsSomeTestText")).mpr (by decide),
   (C5_parse_read_errors.2.2 [0xC2] (by decide)).mpr (by decide)⟩

/-- C6: the parser splits on ASCII space, takes the first token as method and
the second as target, and ignores everything after the second token; the two
reference request lines parse as the spec states. -/
theorem C6_token_split :
    parse_http_request (ascii "CONNECT example.com:443 HTTP/1.1\r\n\r\n") =
      .ok ⟨ascii "CONNECT", ascii "example.com:443"⟩ ∧
    parse_http_request (ascii "GET / HTTP/1.1\r\n\r\n") = .ok ⟨ascii "GET", ascii "/"⟩ ∧
    (∀ m u t : List Nat, 32 ∉ m → 32 ∉ u →
      parse_http_request (m ++ 32 :: (u ++ 32 :: t)) = .ok ⟨m, u⟩) ∧
    (∀ m u : List Nat, 32 ∉ m → 32 ∉ u →
      parse_http_request (m ++ 32 :: u) = .ok ⟨m, u⟩) := by
  refine ⟨by decide, by decide, fun m u t hm hu => ?_, fun m u hm hu => ?_⟩
  · rw [parse_http_request_eq, splitB_append hm, splitB_append hu]
  · rw [parse_http_request_eq, splitB_append hm, splitB_no_space hu]

/-- Witness for C6: the CONNECT example, and a generic three-token line whose
tail is ignored. -/
theorem C6_witness :
    parse_http_request (ascii "CONNECT example.com:443 HTTP/1.1\r\n\r\n") =
      .ok ⟨ascii "CONNECT", ascii "example.com:443"⟩ ∧
    parse_http_request (ascii "A" ++ 32 :: (ascii "B" ++ 32 :: ascii "C D")) =
      .ok ⟨ascii "A", ascii "B"⟩ :=
  ⟨C6_token_split.1, C6_token_split.2.2.1 (ascii "A") (ascii "B") (ascii "C D")
    (by decide) (by decide)⟩

/-- C7: every per-connection failure is absorbed: the loop trace for
`env :: envs` is the trace of `env` followed by the traces of `envs` (the
listener always proceeds to the next accept), and every accepted
connection's trace ends in `closed`, whatever failed. -/
theorem C7_errors_absorbed (env : ConnEnv) (envs : List ConnEnv) :
    runServer (env :: envs) = handleConn env ++ runServer envs ∧
    (env.acceptOk = true → (handleConn env).getLast? = some .closed) := by
  refine ⟨rfl, fun ha => ?_⟩
  rcases handleConn_cases env with ⟨hfalse, _⟩ | hs | hs |
    ⟨data, s, req, _, _, _, hcase⟩
  · rw [ha] at hfalse; cases hfalse
  · rw [hs]; rfl
  · rw [hs]; rfl
  · rcases hcase with ⟨_, hs⟩ | ⟨_, _, hs⟩ | ⟨_, _, hs | hs | hs⟩ <;> rw [hs] <;> rfl

/-- Witness for C7: a TLS-handshake failure ends in `closed` and the loop
moves on. -/
theorem C7_witness :
    runServer [tlsFailEnv] = handleConn tlsFailEnv ++ runServer [] ∧
    (handleConn tlsFailEnv).getLast? = some .closed :=
  ⟨(C7_errors_absorbed tlsFailEnv []).1, (C7_errors_absorbed tlsFailEnv []).2 rfl⟩

/-- C8 counterexample: with two pending connections, the whole success trace
of the first — relay included — precedes the accept of the second: within
the first seven events there is exactly one accept and the full relay, so a
long-running relay does block the listener loop from accepting. -/
theorem C8_counterexample :
    runServer [fullTunnelEnv, tlsFailEnv] =
      [.accepted, .tlsEstablished, .upstreamConnected (ascii "api.giphy.com:443"),
       .statusSent okLine, .streamFlushed, .relayed, .closed, .accepted, .closed] ∧
    Event.relayed ∈ (runServer [fullTunnelEnv, tlsFailEnv]).take 7 ∧
    Event.accepted ∉ ((runServer [fullTunnelEnv, tlsFailEnv]).take 7).drop 1 := by
  refine ⟨by decide, by decide, by decide⟩

/-- C8 (amended): connections are handled strictly sequentially inside the
accept loop itself — the loop's trace is the concatenation of the
per-connection traces in accept order, so the next accept happens only after
the previous connection's handling, relay included, has completed. -/
theorem C8_sequential (envs : List ConnEnv) :
    runServer envs = (envs.map handleConn).flatten := by
  induction envs with
  | nil => rfl
  | cons env rest ih => simp [runServer, ih]

/-- Witness for C8 (amended) at a concrete environment list. -/
theorem C8_witness :
    runServer [fullTunnelEnv, tlsFailEnv] =
      ([fullTunnelEnv, tlsFailEnv].map handleConn).flatten :=
  C8_sequential [fullTunnelEnv, tlsFailEnv]

/-- C9 counterexample: a request that fills the 512-byte buffer exactly, with
its target as the final space-separated token, is parsed to a target with no
trailing NUL bytes that equals the allow-list entry — so the claim that such
a target always carries trailing NULs and can never match fails. -/
theorem C9_counterexample :
    fullBufferRequest.length = 512 ∧
    fullBufferRequest.count 32 = 1 ∧
    read_http_request fullBufferRequest = .ok fullBufferRequest ∧
    parse_http_request fullBufferRequest =
      .ok ⟨List.replicate 494 65, ascii "api.giphy.com:443"⟩ ∧
    (ascii "api.giphy.com:443").getLast? ≠ some 0 ∧
    is_permitted_destination (ascii "api.giphy.com:443") = true := by
  refine ⟨by decide, by decide, by decide, by decide, by decide, by decide⟩

/-- C9 (amended): the reader always hands the parser the whole 512-byte
buffer; when fewer bytes were read the buffer is the data NUL-padded to 512;
and for a request of FEWER than 512 bytes whose target is the final
space-separated token, the parsed target ends in a NUL byte and therefore
never matches any allow-list entry. -/
theorem C9_buffer_padding (data s : List Nat) (req : HttpRequest)
    (hread : read_http_request data = .ok s) :
    s.length = BUFFER_SIZE ∧
    (data.length ≤ BUFFER_SIZE → s = data ++ List.replicate (BUFFER_SIZE - data.length) 0) ∧
    (data.length < BUFFER_SIZE → data.count 32 = 1 → parse_http_request s = .ok req →
      req.uri.getLast? = some 0 ∧ is_permitted_destination req.uri = false) := by
  have hs : s = mkBuffer data := read_ok_elim hread
  subst hs
  refine ⟨mkBuffer_length data, fun h => mkBuffer_eq h, fun hlt hcount hparse => ?_⟩
  obtain ⟨m, u, hdata, hm, hu⟩ := count_one_split hcount
  have hk1 : 1 ≤ BUFFER_SIZE - data.length := by omega
  have hbuf : mkBuffer data = m ++ 32 :: (u ++ List.replicate (BUFFER_SIZE - data.length) 0) := by
    rw [mkBuffer_eq (le_of_lt hlt), hdata]
    simp [List.append_assoc]
  have hnosp : (32 : Nat) ∉ u ++ List.replicate (BUFFER_SIZE - data.length) 0 := by
    intro hmem
    rcases List.mem_append.mp hmem with h1 | h2
    · exact hu h1
    · exact absurd (List.eq_of_mem_replicate h2) (by decide)
  have hsplit : splitB (mkBuffer data) = [m, u ++ List.replicate (BUFFER_SIZE - data.length) 0] := by
    rw [hbuf, splitB_append hm, splitB_no_space hnosp]
  rw [parse_http_request_eq, hsplit] at hparse
  have hreq := Except.ok.inj hparse
  have huri : req.uri = u ++ List.replicate (BUFFER_SIZE - data.length) 0 := by
    rw [← hreq]
  have hlast : (u ++ List.replicate (BUFFER_SIZE - data.length) 0).getLast? = some 0 := by
    obtain ⟨k', hk'⟩ : ∃ k', BUFFER_SIZE - data.length = k' + 1 :=
      ⟨BUFFER_SIZE - data.length - 1, by omega⟩
    rw [hk', List.replicate_succ', ← List.append_assoc, List.getLast?_concat]
  constructor
  · rw [huri]
    exact hlast
  · apply Bool.eq_false_iff.mpr
    intro hperm
    rw [huri] at hperm
    have hequri := (is_permitted_iff _).mp hperm
    rw [hequri] at hlast
    exact absurd hlast (by decide)

/-- Witness for C9 (amended): a 25-byte CONNECT to the allow-listed
destination, with the target as final token, parses to a NUL-tailed target
the policy rejects. -/
theorem C9_witness :
    read_http_request paddedRequest = .ok paddedBuffer ∧
    paddedRequest.length < BUFFER_SIZE ∧ paddedRequest.count 32 = 1 ∧
    parse_http_request paddedBuffer = .ok paddedParsed ∧
    paddedParsed.uri.getLast? = some 0 ∧
    is_permitted_destination paddedParsed.uri = false := by
  have h := (C9_buffer_padding paddedRequest paddedBuffer paddedParsed (by decide)).2.2
    (by decide) (by decide) (by decide)
  exact ⟨by decide, by decide, by decide, by decide, h.1, h.2⟩

/-- C10: the configured allow-list holds exactly the single entry
`api.giphy.com:443`, so the policy permits a string exactly when it equals
that entry. -/
theorem C10_single_entry (s : List Nat) :
    PERMITTED_DESTINATIONS = [ascii "api.giphy.com:443"] ∧
    (is_permitted_destination s = true ↔ s = ascii "api.giphy.com:443") :=
  ⟨rfl, is_permitted_iff s⟩

/-- Witness for C10 at concrete inputs: the single entry, and a rejected
near-miss that differs only in the port. -/
theorem C10_witness :
    PERMITTED_DESTINATIONS = [ascii "api.giphy.com:443"] ∧
    is_permitted_destination (ascii "api.giphy.com:80") = false := by
  refine ⟨(C10_single_entry []).1, ?_⟩
  have h := (C10_single_entry (ascii "api.giphy.com:80")).2
  by_contra hb
  simp only [Bool.not_eq_false] at hb
  exact absurd (h.mp hb) (by decide)

end GifProxy
